import Mathlib

/-!
Verification development for the RSS feed automation pipeline (`src/main.py`).

The embedding below follows the source closely:

* `MD5` — the MD5 digest used by `hashlib.md5(...).hexdigest()` for item
  identities, implemented over `Nat` with explicit `% 2^32` arithmetic.
* `RSSItem`, `RawEntry`, `processEntry`, `processEntries`,
  `fetch_and_process_feeds` — the extraction/normalisation pass.
* `get_new_items`, `mainRun` — the deduplication filter and the `main`
  pipeline.
* `SaveData`, `save_last_run_info`, `load_file`, `save_trace` — the run-state
  store and a file-operation trace model of the save path.

Timestamps are modelled as `Nat` (seconds), with `0` playing the role of
`datetime.min`; one day is `86400`.
-/

set_option maxRecDepth 20000

namespace MD5

/-- 2^32, the word modulus of MD5. -/
def mod32 : Nat := 4294967296

/-- 32-bit addition: `(a + b) % 2^32`. -/
def add32 (a b : Nat) : Nat := (a + b) % mod32

/-- 32-bit complement (valid for inputs below 2^32). -/
def not32 (a : Nat) : Nat := (a % mod32) ^^^ 4294967295

/-- 32-bit left rotation by `s` bits. -/
def rotl32 (x s : Nat) : Nat := ((x <<< s) % mod32) ||| (x >>> (32 - s))

/-- Round function F, rounds 0-15. -/
def fF (b c d : Nat) : Nat := (b &&& c) ||| (not32 b &&& d)

/-- Round function G, rounds 16-31. -/
def fG (b c d : Nat) : Nat := (d &&& b) ||| (not32 d &&& c)

/-- Round function H, rounds 32-47. -/
def fH (b c d : Nat) : Nat := b ^^^ c ^^^ d

/-- Round function I, rounds 48-63. -/
def fI (b c d : Nat) : Nat := c ^^^ (b ||| not32 d)

/-- The 64 sine-derived constants of MD5 (RFC 1321, `T[i] = ⌊2^32·|sin(i+1)|⌋`). -/
def K : List Nat :=
  [3614090360, 3905402710, 606105819, 3250441966,
   4118548399, 1200080426, 2821735955, 4249261313,
   1770035416, 2336552879, 4294925233, 2304563134,
   1804603682, 4254626195, 2792965006, 1236535329,
   4129170786, 3225465664, 643717713, 3921069994,
   3593408605, 38016083, 3634488961, 3889429448,
   568446438, 3275163606, 4107603335, 1163531501,
   2850285829, 4243563512, 1735328473, 2368359562,
   4294588738, 2272392833, 1839030562, 4259657740,
   2763975236, 1272893353, 4139469664, 3200236656,
   681279174, 3936430074, 3572445317, 76029189,
   3654602809, 3873151461, 530742520, 3299628645,
   4096336452, 1126891415, 2878612391, 4237533241,
   1700485571, 2399980690, 4293915773, 2240044497,
   1873313359, 4264355552, 2734768916, 1309151649,
   4149444226, 3174756917, 718787259, 3951481745]

/-- The 64 per-round left-rotation amounts. -/
def S : List Nat :=
  [7, 12, 17, 22, 7, 12, 17, 22, 7, 12, 17, 22, 7, 12, 17, 22,
   5, 9, 14, 20, 5, 9, 14, 20, 5, 9, 14, 20, 5, 9, 14, 20,
   4, 11, 16, 23, 4, 11, 16, 23, 4, 11, 16, 23, 4, 11, 16, 23,
   6, 10, 15, 21, 6, 10, 15, 21, 6, 10, 15, 21, 6, 10, 15, 21]

/-- One MD5 round: state `(a, b, c, d)`, message words `M`, round index `i`. -/
def step (M : List Nat) (st : Nat × Nat × Nat × Nat) (i : Nat) :
    Nat × Nat × Nat × Nat :=
  let (a, b, c, d) := st
  let fg : Nat × Nat :=
    if i < 16 then (fF b c d, i)
    else if i < 32 then (fG b c d, (5 * i + 1) % 16)
    else if i < 48 then (fH b c d, (3 * i + 5) % 16)
    else (fI b c d, (7 * i) % 16)
  let tmp := add32 (add32 (add32 a fg.1) (K.getD i 0)) (M.getD fg.2 0)
  (d, add32 b (rotl32 tmp (S.getD i 0)), b, c)

/-- Group a little-endian byte list into 32-bit words, four bytes per word. -/
def toWords : List Nat → List Nat
  | b0 :: b1 :: b2 :: b3 :: rest =>
      (b0 + 256 * b1 + 65536 * b2 + 16777216 * b3) :: toWords rest
  | _ => []

/-- Process one 64-byte block: 64 rounds, then add the input state back in. -/
def processBlock (st : Nat × Nat × Nat × Nat) (block : List Nat) :
    Nat × Nat × Nat × Nat :=
  let M := toWords block
  let r := (List.range 64).foldl (step M) st
  (add32 st.1 r.1, add32 st.2.1 r.2.1, add32 st.2.2.1 r.2.2.1,
   add32 st.2.2.2 r.2.2.2)

/-- Consume the padded byte stream 64 bytes at a time (fuel-driven, the fuel
is an upper bound on the number of blocks). -/
def processBlocks : Nat → (Nat × Nat × Nat × Nat) → List Nat →
    Nat × Nat × Nat × Nat
  | 0, st, _ => st
  | _, st, [] => st
  | fuel + 1, st, bytes =>
      processBlocks fuel (processBlock st (bytes.take 64)) (bytes.drop 64)

/-- MD5 padding: `0x80`, zeros to 56 mod 64, then the 64-bit little-endian
bit length. -/
def padMessage (msg : List Nat) : List Nat :=
  let len := msg.length
  let zeros := (120 - (len + 1) % 64) % 64
  let bitLen := 8 * len
  msg ++ 128 :: List.replicate zeros 0 ++
    [bitLen % 256, (bitLen >>> 8) % 256, (bitLen >>> 16) % 256,
     (bitLen >>> 24) % 256, (bitLen >>> 32) % 256, (bitLen >>> 40) % 256,
     (bitLen >>> 48) % 256, (bitLen >>> 56) % 256]

/-- Initial MD5 state `(A, B, C, D)`. -/
def initState : Nat × Nat × Nat × Nat :=
  (1732584193, 4023233417, 2562383102, 271733878)

/-- Lower-case hex digit. -/
def hexDigit (n : Nat) : Char :=
  if n < 10 then Char.ofNat (48 + n) else Char.ofNat (87 + n)

/-- Two hex digits of one byte. -/
def byteHex (b : Nat) : List Char := [hexDigit (b / 16), hexDigit (b % 16)]

/-- A 32-bit word as four little-endian bytes. -/
def wordLEBytes (w : Nat) : List Nat :=
  [w % 256, (w >>> 8) % 256, (w >>> 16) % 256, (w >>> 24) % 256]

/-- MD5 digest of a byte list, as the usual 32-character lower-case hex
string. -/
def md5bytes (msg : List Nat) : String :=
  let padded := padMessage msg
  let st := processBlocks padded.length initState padded
  let digestBytes :=
    wordLEBytes st.1 ++ wordLEBytes st.2.1 ++ wordLEBytes st.2.2.1 ++
      wordLEBytes st.2.2.2
  String.mk (digestBytes.flatMap byteHex)

end MD5

/-- Byte encoding of a string, as `str.encode()` does in the source.  The
development only ever hashes ASCII strings, on which UTF-8 coincides with
the code points. -/
def strBytes (s : String) : List Nat := s.data.map Char.toNat

/-- `hashlib.md5(s.encode()).hexdigest()` from `src/main.py` line 73. -/
def md5hex (s : String) : String := MD5.md5bytes (strBytes s)

/-! ## Data model and extraction pass -/

/-- Drop characters until `pat` occurs as a prefix; return the characters
after the match, or `none` when `pat` does not occur. -/
def afterSub (pat : List Char) : List Char → Option (List Char)
  | [] => none
  | c :: rest =>
    if pat.isPrefixOf (c :: rest) then some ((c :: rest).drop pat.length)
    else afterSub pat rest

/-- Model of `extract_image_url` (`src/main.py` lines 36-49): the external
HTML parse is replaced by a tolerant scan that locates the first `<img` tag
and reads its `src="..."` attribute; an empty description or a missing image
tag yields `none`, exactly as in the source. -/
def extract_image_url (item_description : String) : Option String :=
  if item_description = "" then none
  else
    match afterSub ("<img".data) item_description.data with
    | none => none
    | some rest =>
      let tag := rest.takeWhile (fun c => c ≠ '>')
      match afterSub ("src=\"".data) tag with
      | none => none
      | some r2 => some (String.mk (r2.takeWhile (fun c => c ≠ '"')))

/-- Tag-stripping scanner behind `markdownify`: `true` means the scan is
inside a `<...>` tag. -/
def stripTagsAux : Bool → List Char → List Char
  | _, [] => []
  | true, c :: rest =>
    if c = '>' then stripTagsAux false rest else stripTagsAux true rest
  | false, c :: rest =>
    if c = '<' then stripTagsAux true rest else c :: stripTagsAux false rest

/-- Model of the external `markdownify` call (`src/main.py` line 91): the
markup-to-text conversion is modelled as removal of `<...>` spans.  It is
total and never fails, matching the library's tolerant behaviour; no claim
below depends on the exact converted text. -/
def markdownify (s : String) : String := String.mk (stripTagsAux false s.data)

/-- One feed entry as surfaced by `feedparser`: a field is `none` when the
attribute is absent (reading it then raises `AttributeError` in the source).
`published_parsed` is the already-parsed publication instant, `none` when the
feed carried no parseable date. -/
structure RawEntry where
  title : Option String
  link : Option String
  description : Option String
  summary : Option String
  published_parsed : Option Nat
deriving DecidableEq, Repr

/-- The processed item record (`class RSSItem`, `src/main.py` lines 14-34). -/
structure RSSItem where
  title : String
  description : String
  link : String
  pub_date : Option Nat
  image_url : Option String
  source : String
  item_id : String
deriving DecidableEq, Repr

/-- The body of the per-entry loop (`src/main.py` lines 71-103).  Reading
`entry.title` or `entry.link` on an entry lacking that attribute raises, so
those two accesses are the failure points; every later step is total.  The
hash is taken first, exactly as in the source (line 73). -/
def processEntry (source_name : String) (e : RawEntry) : Except Unit RSSItem :=
  match e.title, e.link with
  | some title, some link =>
    let item_hash := md5hex (title ++ ":" ++ link)
    let pub_date := e.published_parsed
    let description :=
      match e.description with
      | some d => d
      | none =>
        match e.summary with
        | some s => s
        | none => ""
    let image_url := extract_image_url description
    let clean_description := markdownify description
    .ok { title := title, description := clean_description, link := link,
          pub_date := pub_date, image_url := image_url, source := source_name,
          item_id := item_hash }
  | _, _ => .error ()

/-- The entry loop of one feed: each successful item is appended to the
accumulator before the next entry is read, and an exception propagates to the
per-feed `except` (`src/main.py` lines 105-106), so the first failing entry
ends the feed's extraction while the items already appended are kept. -/
def processEntries (source_name : String) : List RawEntry → List RSSItem
  | [] => []
  | e :: rest =>
    match processEntry source_name e with
    | .ok item => item :: processEntries source_name rest
    | .error _ => []

/-- A configured feed: its URL and the entries `feedparser` returns for it. -/
structure Feed where
  url : String
  entries : List RawEntry
deriving Repr

/-- Python's `str.split(sep)` for a one-character separator: split on every
occurrence, keeping empty pieces. -/
def splitOnChar (sep : Char) : List Char → List (List Char)
  | [] => [[]]
  | c :: rest =>
    let r := splitOnChar sep rest
    if c = sep then [] :: r
    else
      match r with
      | [] => [[c]]
      | h :: t => (c :: h) :: t

/-- `feed_url.split('/')` from `src/main.py` line 68. -/
def pySplit (s : String) (sep : Char) : List String :=
  (splitOnChar sep s.data).map String.mk

/-- One iteration of the feed loop: `source_name = feed_url.split('/')[2]`
(`src/main.py` line 68); an out-of-range index raises inside the per-feed
`try`, before any entry is processed, so that feed contributes nothing. -/
def processFeed (f : Feed) : List RSSItem :=
  match (pySplit f.url '/').get? 2 with
  | none => []
  | some source_name => processEntries source_name f.entries

/-- All items of all feeds, in extraction order, before sorting. -/
def rawItems (feeds : List Feed) : List RSSItem :=
  (feeds.map processFeed).flatten

/-- `datetime.min`, the sort key substituted for a missing `pub_date`
(`src/main.py` line 109).  Timestamps are `Nat`, so `datetime.min` is `0`. -/
def datetimeMin : Nat := 0

/-- The sort key of line 109: `x.pub_date if x.pub_date else datetime.min`. -/
def sortKey (x : RSSItem) : Nat := x.pub_date.getD datetimeMin

/-- The ordering realising `sort(key=..., reverse=True)`: descending by
`sortKey`. -/
def itemR (a b : RSSItem) : Prop := sortKey b ≤ sortKey a

instance : DecidableRel itemR := fun a b => Nat.decLe (sortKey b) (sortKey a)

instance : IsTotal RSSItem itemR :=
  ⟨fun a b => (Nat.le_total (sortKey b) (sortKey a)).imp id id⟩

instance : IsTrans RSSItem itemR :=
  ⟨fun _ _ _ hab hbc => Nat.le_trans hbc hab⟩

/-- Python's `list.sort` is a stable sort, and `reverse=True` keeps elements
with equal keys in their original order; any stable sort under the same
total preorder produces the same list, so a stable insertion sort models
line 109 exactly. -/
def sortItems (l : List RSSItem) : List RSSItem := l.insertionSort itemR

/-- `fetch_and_process_feeds` (`src/main.py` lines 51-111): extract every
feed, concatenate, sort newest-first. -/
def fetch_and_process_feeds (feeds : List Feed) : List RSSItem :=
  sortItems (rawItems feeds)

/-- `get_new_items` (`src/main.py` lines 113-126): keep items whose
`pub_date` is present and strictly after `since`; items without a `pub_date`
are skipped unconditionally. -/
def get_new_items (items : List RSSItem) (since : Nat) : List RSSItem :=
  items.filter fun item =>
    match item.pub_date with
    | none => false
    | some d => since < d

/-! ## Run-state store -/

/-- The persisted record (`src/main.py` lines 130-133). -/
structure SaveData where
  last_run : Nat
  last_item_ids : List String
deriving DecidableEq, Repr

/-- `save_last_run_info` (`src/main.py` lines 128-137): the record written
to the state file. -/
def save_last_run_info (last_run_time : Nat) (last_item_ids : List String) :
    SaveData :=
  { last_run := last_run_time, last_item_ids := last_item_ids }

/-- Observable content of the state file: missing, truncated mid-write (not
parseable as the record), or a complete record. -/
inductive FileContent where
  | absent
  | truncated
  | full (d : SaveData)
deriving DecidableEq, Repr

/-- `load_last_run_info` (`src/main.py` lines 139-159): a missing file
returns `(None, [])`, a file that fails to parse is caught and also returns
`(None, [])`, and a complete record is returned as saved. -/
def load_last_run_info : FileContent → Option Nat × List String
  | .absent => (none, [])
  | .truncated => (none, [])
  | .full d => (some d.last_run, d.last_item_ids)

/-- The single path the state is stored at. -/
def statePath : String := "data/last_run_info.json"

/-- File-system operations relevant to the save path.  `rename` is included
so that its absence from the save trace can be stated; the embedded save
never emits one. -/
inductive FsOp where
  | openTrunc (path : String)
  | writeAll (path : String) (d : SaveData)
  | rename (src : String) (dst : String)
deriving DecidableEq, Repr

/-- The operations `save_last_run_info` performs (`src/main.py` line 136):
`open(path, 'w')` truncates the file in place, then `json.dump` writes the
record.  No temporary file, no rename. -/
def save_trace (last_run_time : Nat) (last_item_ids : List String) :
    List FsOp :=
  [.openTrunc statePath,
   .writeAll statePath (save_last_run_info last_run_time last_item_ids)]

/-- Effect of one operation on the state file (single-file model: operations
on other paths leave it unchanged; no trace in this development renames). -/
def applyOp (file : FileContent) : FsOp → FileContent
  | .openTrunc p => if p = statePath then .truncated else file
  | .writeAll p d => if p = statePath then .full d else file
  | .rename _ _ => file

/-- The state file after a (possibly partial) sequence of operations. -/
def runTrace (file : FileContent) (ops : List FsOp) : FileContent :=
  ops.foldl applyOp file

/-! ## Output files and the main pipeline -/

/-- The file outputs of `save_items_to_files` (`src/main.py` lines 161-188):
`new_items.json` is always written, `new_items.csv` only when there are new
items, `all_items.json` only when the full list is non-empty. -/
structure FilesOutput where
  new_items_json : List RSSItem
  new_items_csv : Option (List RSSItem)
  all_items_json : Option (List RSSItem)
deriving DecidableEq, Repr

/-- `save_items_to_files` as the data each sink receives. -/
def save_items_to_files (items : List RSSItem) (all_items : List RSSItem) :
    FilesOutput :=
  { new_items_json := items
    new_items_csv := if items.isEmpty then none else some items
    all_items_json := if all_items.isEmpty then none else some all_items }

/-- `timedelta(days=1)` in seconds. -/
def day : Nat := 86400

/-- Everything one run produces. -/
structure RunResult where
  cutoff : Nat
  all_items : List RSSItem
  dispatched : List RSSItem
  files : FilesOutput
  saved : SaveData
deriving Repr

/-- The novelty cutoff of a run (`src/main.py` lines 249-254): the loaded
`last_run` when present, else `current_time` minus one day. -/
def cutoffOf (file : FileContent) (current_time : Nat) : Nat :=
  match (load_last_run_info file).1 with
  | some t => t
  | none => current_time - day

/-- The `main` pipeline (`src/main.py` lines 241-276): load the prior state,
default the cutoff to `current_time` minus one day when absent, fetch and
sort all items, keep those strictly after the cutoff, drop those whose id is
already in the loaded id list, append the dispatched ids to the loaded list,
and save the current time with that list.  (`current_time - day` uses
truncated `Nat` subtraction: `0` stands for `datetime.min`.) -/
def mainRun (feeds : List Feed) (file : FileContent) (current_time : Nat) :
    RunResult :=
  let loaded := load_last_run_info file
  let last_item_ids := loaded.2
  let last_run_time := cutoffOf file current_time
  let all_items := fetch_and_process_feeds feeds
  let new_items := get_new_items all_items last_run_time
  let filtered_new_items :=
    new_items.filter fun item => !last_item_ids.contains item.item_id
  let new_item_ids :=
    last_item_ids ++ filtered_new_items.map (fun item => item.item_id)
  { cutoff := last_run_time
    all_items := all_items
    dispatched := filtered_new_items
    files := save_items_to_files filtered_new_items all_items
    saved := save_last_run_info current_time new_item_ids }

/-! ## MD5 test vectors -/

/-- RFC 1321 test vector: the digest of the empty string. -/
theorem md5hex_empty : md5hex "" = "d41d8cd98f00b204e9800998ecf8427e" := by
  decide

/-- RFC 1321 test vector: the digest of `"abc"`. -/
theorem md5hex_abc : md5hex "abc" = "900150983cd24fb0d6963f7d28e17f72" := by
  decide

/-! ## Helper lemmas -/

/-- A well-formed entry (title and link present) processes to exactly the
record built at `src/main.py` lines 94-102. -/
theorem processEntry_eq_ok (s t l : String) (d su : Option String)
    (p : Option Nat) :
    processEntry s ⟨some t, some l, d, su, p⟩ = .ok
      { title := t, description := markdownify (d.getD (su.getD "")),
        link := l, pub_date := p,
        image_url := extract_image_url (d.getD (su.getD "")),
        source := s, item_id := md5hex (t ++ ":" ++ l) } := by
  cases d <;> cases su <;> rfl

/-- An entry missing its title or its link raises while it is read, which
the embedding records as `.error`. -/
theorem processEntry_eq_error (s : String) (e : RawEntry)
    (h : e.title = none ∨ e.link = none) :
    processEntry s e = .error () := by
  obtain ⟨et, el, ed, es, ep⟩ := e
  rcases h with h | h
  · simp only at h; subst h; cases el <;> rfl
  · simp only at h; subst h; cases et <;> rfl

/-- Unfolding step of the entry loop on a successful entry. -/
theorem processEntries_cons_ok (s : String) (e : RawEntry)
    (rest : List RawEntry) (i : RSSItem) (h : processEntry s e = .ok i) :
    processEntries s (e :: rest) = i :: processEntries s rest := by
  simp [processEntries, h]

/-- Unfolding step of the entry loop on a failing entry: the feed ends. -/
theorem processEntries_cons_error (s : String) (e : RawEntry)
    (rest : List RawEntry) (h : processEntry s e = .error ()) :
    processEntries s (e :: rest) = [] := by
  simp [processEntries, h]

/-- When every entry is well formed, the extraction loop keeps them all. -/
theorem processEntries_length_ok (s : String) (entries : List RawEntry)
    (h : ∀ e ∈ entries, e.title.isSome ∧ e.link.isSome) :
    (processEntries s entries).length = entries.length := by
  induction entries with
  | nil => rfl
  | cons e rest ih =>
    obtain ⟨ht, hl⟩ := h e (List.mem_cons_self ..)
    obtain ⟨et, el, ed, es, ep⟩ := e
    cases het : et with
    | none => subst het; simp at ht
    | some t =>
      cases hel : el with
      | none => subst hel; simp at hl
      | some l =>
        subst het; subst hel
        rw [processEntries, processEntry_eq_ok]
        simpa using ih fun e he => h e (List.mem_cons_of_mem _ he)

/-! ## Claim C1 — identity derivation -/

/-- **C1, counterexample.**  Two raw entries with the same link but different
titles receive *different* identities: line 73 hashes `title:link`
unconditionally, so the identity is never keyed on the link alone and the
claimed link-only identity fails at this concrete input. -/
theorem C1_link_only_identity_false :
    ∃ i1 i2 : RSSItem,
      processEntry "ex.com"
          ⟨some "A", some "https://ex.com/a", none, none, some 100⟩ = .ok i1 ∧
      processEntry "ex.com"
          ⟨some "B", some "https://ex.com/a", none, none, some 100⟩ = .ok i2 ∧
      i1.link = i2.link ∧ i1.item_id ≠ i2.item_id :=
  ⟨_, _, processEntry_eq_ok .., processEntry_eq_ok .., rfl, by decide⟩

/-- **C1, amended.**  The identity is always the md5 content hash of
`"title:link"` — not the link, and not only as a fallback for empty links.
It depends on the title and the link alone, so the same title and link yield
the same identity on every run, for any source label, after any restart;
entries agreeing only on the link may hash differently. -/
theorem C1_identity_content_hash (s1 s2 t l : String)
    (d1 su1 d2 su2 : Option String) (p1 p2 : Option Nat) :
    ∃ i1 i2 : RSSItem,
      processEntry s1 ⟨some t, some l, d1, su1, p1⟩ = .ok i1 ∧
      processEntry s2 ⟨some t, some l, d2, su2, p2⟩ = .ok i2 ∧
      i1.item_id = md5hex (t ++ ":" ++ l) ∧ i2.item_id = i1.item_id :=
  ⟨_, _, processEntry_eq_ok .., processEntry_eq_ok .., rfl, rfl⟩

/-! ## Claim C7 — save/load round trip -/

/-- **C7.**  For every timestamp and identity list, loading right after a
completed save returns exactly the saved data. -/
theorem C7_save_load_roundtrip (t : Nat) (ids : List String) :
    load_last_run_info (.full (save_last_run_info t ids)) = (some t, ids) :=
  rfl

/-! ## Claim C8 — atomicity of the save -/

/-- **C8, counterexample.**  The save is not atomic and uses no rename:
`open(path, 'w')` truncates the state file in place, so after the first step
of a save interrupted partway the file holds neither the complete old state
nor the complete new state, and no operation of the save is a rename. -/
theorem C8_save_not_atomic :
    (∀ op ∈ save_trace 9 ["b"], ∀ src dst, op ≠ .rename src dst) ∧
    runTrace (.full ⟨5, ["a"]⟩) ((save_trace 9 ["b"]).take 1) ≠
      .full ⟨5, ["a"]⟩ ∧
    runTrace (.full ⟨5, ["a"]⟩) ((save_trace 9 ["b"]).take 1) ≠
      .full (save_last_run_info 9 ["b"]) := by
  refine ⟨?_, by decide, by decide⟩
  intro op hop src dst
  simp only [save_trace, List.mem_cons, List.not_mem_nil, or_false] at hop
  rcases hop with h | h <;> subst h <;> intro hc <;> cases hc

/-- **C8, amended.**  The save overwrites `data/last_run_info.json` in place
(truncate, then write), with no temporary file and no rename; a save
interrupted after the truncate leaves the file in a corrupt state that is
neither the old nor the new record, which a subsequent load maps to the
default `(none, [])`; a save that completes leaves exactly the new record. -/
theorem C8_save_overwrites_in_place (t : Nat) (ids : List String)
    (old : FileContent) :
    runTrace old (save_trace t ids) = .full (save_last_run_info t ids) ∧
    runTrace old ((save_trace t ids).take 1) = .truncated ∧
    load_last_run_info .truncated = (none, []) ∧
    ∀ op ∈ save_trace t ids, ∀ src dst, op ≠ .rename src dst := by
  refine ⟨rfl, rfl, rfl, ?_⟩
  intro op hop src dst
  simp only [save_trace, List.mem_cons, List.not_mem_nil, or_false] at hop
  rcases hop with h | h <;> subst h <;> intro hc <;> cases hc

/-! ## Claim C4 — per-feed extraction bound -/

/-- **C4, counterexample.**  The entry loop at line 71 iterates over *all*
of `parsed_feed.entries` with no slice or counter: a feed whose document
contains 15 well-formed entries contributes all 15 items to the run, so the
claimed at-most-10 bound fails. -/
theorem C4_bound_false :
    (fetch_and_process_feeds
        [⟨"https://ex.com/feed",
          List.replicate 15 ⟨some "T", some "L", none, none, some 100⟩⟩]).length
        = 15 ∧
    ¬ (fetch_and_process_feeds
        [⟨"https://ex.com/feed",
          List.replicate 15 ⟨some "T", some "L", none, none, some 100⟩⟩]).length
        ≤ 10 := by
  constructor <;> decide

/-- **C4, amended.**  No per-feed bound exists: for a feed whose URL has a
host component and whose entries are all well formed, every entry is
extracted, so a feed returning 15 entries yields 15 items, not at most 10. -/
theorem C4_every_entry_extracted (f : Feed)
    (hurl : ((pySplit f.url '/').get? 2).isSome)
    (hgood : ∀ e ∈ f.entries, e.title.isSome ∧ e.link.isSome) :
    (fetch_and_process_feeds [f]).length = f.entries.length := by
  obtain ⟨sn, hsn⟩ := Option.isSome_iff_exists.mp hurl
  unfold fetch_and_process_feeds sortItems rawItems
  rw [List.length_insertionSort]
  simp only [List.map_cons, List.map_nil, List.flatten_cons, List.flatten_nil,
    List.append_nil]
  unfold processFeed
  rw [hsn]
  exact processEntries_length_ok sn f.entries hgood

/-- Witness for `C4_every_entry_extracted` at a concrete 15-entry feed. -/
theorem C4_every_entry_extracted_witness :
    (((pySplit "https://ex.com/feed" '/').get? 2).isSome ∧
      ∀ e ∈ List.replicate 15
          (⟨some "T", some "L", none, none, some 100⟩ : RawEntry),
        e.title.isSome ∧ e.link.isSome) ∧
    (fetch_and_process_feeds
        [⟨"https://ex.com/feed",
          List.replicate 15 ⟨some "T", some "L", none, none, some 100⟩⟩]).length
      = (List.replicate 15
          (⟨some "T", some "L", none, none, some 100⟩ : RawEntry)).length :=
  ⟨⟨by decide, by decide⟩,
    C4_every_entry_extracted _ (by decide) (by decide)⟩

/-! ## Claim C5 — isolation of a malformed entry -/

/-- **C5, counterexample.**  In a feed with entries `G1`, then a malformed
entry with no title, then `G3`, the exception raised while reading the
malformed entry's fields propagates to the per-feed handler: only `G1`
survives and the well-formed sibling `G3` is lost, refuting the claim that a
single bad entry costs at most that one entry. -/
theorem C5_sibling_loss :
    (processEntries "ex.com"
        [⟨some "G1", some "https://ex.com/1", none, none, some 300⟩,
         ⟨none, some "https://ex.com/2", none, none, some 200⟩,
         ⟨some "G3", some "https://ex.com/3", none, none, some 100⟩]).map
      (fun i => i.title) = ["G1"] ∧
    ∀ i ∈ processEntries "ex.com"
        [⟨some "G1", some "https://ex.com/1", none, none, some 300⟩,
         ⟨none, some "https://ex.com/2", none, none, some 200⟩,
         ⟨some "G3", some "https://ex.com/3", none, none, some 100⟩],
      i.title ≠ "G3" := by
  constructor <;> decide

/-- **C5, amended.**  A failing entry ends that feed's extraction: the
entries already processed are kept (they were appended before the exception),
but the failing entry and *all* its later siblings in the same feed are
dropped; feeds are still isolated from one another, each contributing its own
items to the concatenation. -/
theorem C5_bad_entry_aborts_feed (s : String) (pre : List RawEntry)
    (bad : RawEntry) (rest : List RawEntry)
    (hbad : bad.title = none ∨ bad.link = none) :
    processEntries s (pre ++ bad :: rest) = processEntries s pre ∧
    ∀ feeds1 feeds2 f, rawItems (feeds1 ++ f :: feeds2) =
      rawItems feeds1 ++ (processFeed f ++ rawItems feeds2) := by
  constructor
  · induction pre with
    | nil =>
      rw [List.nil_append,
        processEntries_cons_error s bad rest (processEntry_eq_error s bad hbad)]
      rfl
    | cons e pre ih =>
      rw [List.cons_append]
      cases h : processEntry s e with
      | ok item =>
        rw [processEntries_cons_ok s e _ item h,
          processEntries_cons_ok s e pre item h, ih]
      | error u =>
        cases u
        rw [processEntries_cons_error s e _ h,
          processEntries_cons_error s e pre h]
  · intro feeds1 feeds2 f
    unfold rawItems
    rw [List.map_append, List.map_cons, List.flatten_append, List.flatten_cons]

/-- Witness for `C5_bad_entry_aborts_feed`: one good entry, then a titleless
entry, then another good entry. -/
theorem C5_bad_entry_aborts_feed_witness :
    ((⟨none, some "https://ex.com/2", none, none, some 200⟩ : RawEntry).title
        = none ∨
      (⟨none, some "https://ex.com/2", none, none, some 200⟩ : RawEntry).link
        = none) ∧
    (processEntries "ex.com"
        ([⟨some "G1", some "https://ex.com/1", none, none, some 300⟩] ++
          ⟨none, some "https://ex.com/2", none, none, some 200⟩ ::
            [⟨some "G3", some "https://ex.com/3", none, none, some 100⟩]) =
      processEntries "ex.com"
        [⟨some "G1", some "https://ex.com/1", none, none, some 300⟩] ∧
      ∀ feeds1 feeds2 f, rawItems (feeds1 ++ f :: feeds2) =
        rawItems feeds1 ++ (processFeed f ++ rawItems feeds2)) :=
  ⟨Or.inl rfl,
    C5_bad_entry_aborts_feed "ex.com"
      [⟨some "G1", some "https://ex.com/1", none, none, some 300⟩]
      ⟨none, some "https://ex.com/2", none, none, some 200⟩
      [⟨some "G3", some "https://ex.com/3", none, none, some 100⟩]
      (Or.inl rfl)⟩

/-! ## Claims C2, C3 — the deduplication filter -/

/-- Membership in `get_new_items`: an item passes if and only if it is in
the input and its `pub_date` is present and strictly after `since`. -/
theorem mem_get_new_items (items : List RSSItem) (since : Nat)
    (item : RSSItem) :
    item ∈ get_new_items items since ↔
      item ∈ items ∧ ∃ d, item.pub_date = some d ∧ since < d := by
  simp only [get_new_items, List.mem_filter]
  constructor
  · rintro ⟨h1, h2⟩
    refine ⟨h1, ?_⟩
    cases hd : item.pub_date with
    | none => rw [hd] at h2; simp at h2
    | some d =>
      rw [hd] at h2
      exact ⟨d, rfl, by simpa using h2⟩
  · rintro ⟨h1, d, hd, hlt⟩
    refine ⟨h1, ?_⟩
    rw [hd]
    simpa using hlt

/-- **C3.**  An item is dispatched exactly when it is one of this run's
items, its publish date is strictly after the cutoff (the loaded
`last_run` timestamp, or its 24-hour default), and its identity is not in
the loaded identity list; moreover the dispatched list is literally the
pure filter `get_new_items` followed by the identity filter over the loaded
state — the embedding of the filter is a function with no effects, and the
loaded state reappears unmodified as the prefix of `saved.last_item_ids`,
its only mutation, performed after filtering (lines 268-270). -/
theorem C3_dispatch_membership (feeds : List Feed) (file : FileContent)
    (t : Nat) (item : RSSItem) :
    (item ∈ (mainRun feeds file t).dispatched ↔
      item ∈ (mainRun feeds file t).all_items ∧
      (∃ d, item.pub_date = some d ∧ cutoffOf file t < d) ∧
      ¬ item.item_id ∈ (load_last_run_info file).2) ∧
    (mainRun feeds file t).dispatched =
      (get_new_items (fetch_and_process_feeds feeds) (cutoffOf file t)).filter
        (fun i => !(load_last_run_info file).2.contains i.item_id) ∧
    (mainRun feeds file t).saved.last_item_ids =
      (load_last_run_info file).2 ++
        (mainRun feeds file t).dispatched.map (fun i => i.item_id) := by
  refine ⟨?_, rfl, rfl⟩
  show item ∈ (get_new_items (fetch_and_process_feeds feeds)
      (cutoffOf file t)).filter
      (fun i => !(load_last_run_info file).2.contains i.item_id) ↔ _
  rw [List.mem_filter, mem_get_new_items]
  constructor
  · rintro ⟨⟨h1, h2⟩, h3⟩
    refine ⟨h1, h2, ?_⟩
    simpa using h3
  · rintro ⟨h1, h2, h3⟩
    exact ⟨⟨h1, h2⟩, by simpa using h3⟩

/-- **C2.**  Idempotence: a second run over the same feed content, loading
the state the first run saved, dispatches nothing — every item either has no
publish date or one not strictly after the first run's saved timestamp, or
was dispatched in (or before) the first run and so its identity is already
in the saved list.  The one hypothesis is that the first run's cutoff does
not lie in that run's future, which holds whenever the loaded timestamp is a
past run's (and holds definitionally for the 24-hour default). -/
theorem C2_second_run_dispatches_nothing (feeds : List Feed)
    (file : FileContent) (t1 t2 : Nat) (h : cutoffOf file t1 ≤ t1) :
    (mainRun feeds (.full (mainRun feeds file t1).saved) t2).dispatched
      = [] := by
  show (get_new_items (fetch_and_process_feeds feeds)
      (cutoffOf (.full (mainRun feeds file t1).saved) t2)).filter
      (fun i =>
        !((mainRun feeds file t1).saved.last_item_ids).contains i.item_id)
    = []
  rw [List.filter_eq_nil_iff]
  intro i hi
  rw [mem_get_new_items] at hi
  obtain ⟨hmem, d, hd, hlt⟩ := hi
  have hlt1 : cutoffOf file t1 < d := Nat.lt_of_le_of_lt h hlt
  suffices hin : i.item_id ∈ (mainRun feeds file t1).saved.last_item_ids by
    simp [hin]
  show i.item_id ∈ (load_last_run_info file).2 ++
    (mainRun feeds file t1).dispatched.map (fun i => i.item_id)
  by_cases hc : i.item_id ∈ (load_last_run_info file).2
  · exact List.mem_append_left _ hc
  · refine List.mem_append_right _ ?_
    refine List.mem_map_of_mem (fun x : RSSItem => x.item_id) ?_
    show i ∈ (get_new_items (fetch_and_process_feeds feeds)
        (cutoffOf file t1)).filter
        (fun i => !(load_last_run_info file).2.contains i.item_id)
    rw [List.mem_filter, mem_get_new_items]
    exact ⟨⟨hmem, d, hd, hlt1⟩, by simpa using hc⟩

/-- Witness for `C2_second_run_dispatches_nothing`: a first run from no
prior state dispatches one item; the second run over the same feed
dispatches nothing. -/
theorem C2_second_run_dispatches_nothing_witness :
    cutoffOf .absent 86400 ≤ 86400 ∧
    (mainRun [⟨"https://ex.com/feed",
        [⟨some "T", some "L", none, none, some 43200⟩]⟩]
      (.full (mainRun [⟨"https://ex.com/feed",
          [⟨some "T", some "L", none, none, some 43200⟩]⟩]
        .absent 86400).saved) 172800).dispatched = [] :=
  ⟨by decide,
    C2_second_run_dispatches_nothing
      [⟨"https://ex.com/feed", [⟨some "T", some "L", none, none, some 43200⟩]⟩]
      .absent 86400 172800 (by decide)⟩

/-! ## Claim C6 — ordering of the dispatched list -/

/-- **C6.**  The dispatched list is ordered by publish date descending
(`itemR x y` is `sortKey y ≤ sortKey x`, and on dispatched items `sortKey`
*is* the publish date, since every dispatched item has one — which also makes
the claim's "items lacking a timestamp appear after all items that have one"
hold vacuously there); and the sort is stable: two items with equal keys
that both survive the filters keep their relative extraction order. -/
theorem C6_dispatch_ordering (feeds : List Feed) (file : FileContent)
    (t : Nat) (a b : RSSItem)
    (hsub : List.Sublist [a, b] (rawItems feeds))
    (hkey : sortKey a = sortKey b)
    (hda : ∃ d, a.pub_date = some d ∧ cutoffOf file t < d)
    (hdb : ∃ d, b.pub_date = some d ∧ cutoffOf file t < d)
    (hia : ¬ a.item_id ∈ (load_last_run_info file).2)
    (hib : ¬ b.item_id ∈ (load_last_run_info file).2) :
    (mainRun feeds file t).dispatched.Pairwise itemR ∧
    (∀ x ∈ (mainRun feeds file t).dispatched, x.pub_date.isSome) ∧
    List.Sublist [a, b] ((mainRun feeds file t).dispatched) := by
  obtain ⟨da, hda1, hda2⟩ := hda
  obtain ⟨db, hdb1, hdb2⟩ := hdb
  have hD : (mainRun feeds file t).dispatched =
      ((sortItems (rawItems feeds)).filter
          (fun item => match item.pub_date with
            | none => false
            | some d => decide (cutoffOf file t < d))).filter
        (fun i => !(load_last_run_info file).2.contains i.item_id) := rfl
  refine ⟨?_, ?_, ?_⟩
  · rw [hD]
    exact List.Pairwise.sublist
      ((List.filter_sublist _).trans (List.filter_sublist _))
      (List.sorted_insertionSort itemR (rawItems feeds))
  · intro x hx
    rw [hD] at hx
    have hx2 := (List.mem_filter.mp (List.mem_filter.mp hx).1).2
    cases hp : x.pub_date with
    | none => rw [hp] at hx2; simp at hx2
    | some d => rfl
  · have hpair : [a, b].Pairwise itemR := by
      rw [List.pairwise_pair]
      show sortKey b ≤ sortKey a
      rw [hkey]
    have hs1 : List.Sublist [a, b] (sortItems (rawItems feeds)) :=
      List.sublist_insertionSort hpair hsub
    have e1 : [a, b].filter
        (fun item => match item.pub_date with
          | none => false
          | some d => decide (cutoffOf file t < d)) = [a, b] := by
      simp [List.filter_cons, hda1, hdb1, hda2, hdb2]
    have e2 : [a, b].filter
        (fun i => !(load_last_run_info file).2.contains i.item_id)
        = [a, b] := by
      simp [List.filter_cons, hia, hib]
    rw [hD]
    have hf1 := hs1.filter
      (fun item => match item.pub_date with
        | none => false
        | some d => decide (cutoffOf file t < d))
    rw [e1] at hf1
    have hf2 := hf1.filter
      (fun i => !(load_last_run_info file).2.contains i.item_id)
    rw [e2] at hf2
    exact hf2


/-- Concrete two-entry feed for the C6 witness: equal publish dates. -/
def feedC6 : Feed :=
  ⟨"https://ex.com/feed",
   [⟨some "T1", some "L1", none, none, some 100⟩,
    ⟨some "T2", some "L2", none, none, some 100⟩]⟩

/-- The normalized form of `feedC6`'s first entry. -/
def itemC6a : RSSItem :=
  { title := "T1", description := "", link := "L1", pub_date := some 100,
    image_url := none, source := "ex.com", item_id := md5hex "T1:L1" }

/-- The normalized form of `feedC6`'s second entry. -/
def itemC6b : RSSItem :=
  { title := "T2", description := "", link := "L2", pub_date := some 100,
    image_url := none, source := "ex.com", item_id := md5hex "T2:L2" }

/-- Witness for `C6_dispatch_ordering`: two items with equal publish dates
from one feed, first run (no prior state). -/
theorem C6_dispatch_ordering_witness :
    (List.Sublist [itemC6a, itemC6b] (rawItems [feedC6]) ∧
      sortKey itemC6a = sortKey itemC6b ∧
      (∃ d, itemC6a.pub_date = some d ∧ cutoffOf .absent 86400 < d) ∧
      ¬ itemC6a.item_id ∈ (load_last_run_info .absent).2) ∧
    ((mainRun [feedC6] .absent 86400).dispatched.Pairwise itemR ∧
      (∀ x ∈ (mainRun [feedC6] .absent 86400).dispatched,
        x.pub_date.isSome) ∧
      List.Sublist [itemC6a, itemC6b]
        ((mainRun [feedC6] .absent 86400).dispatched)) :=
  have hsub : List.Sublist [itemC6a, itemC6b] (rawItems [feedC6]) := by
    rw [show rawItems [feedC6] = [itemC6a, itemC6b] from rfl]
  ⟨⟨hsub, rfl, ⟨100, rfl, by decide⟩, List.not_mem_nil _⟩,
    C6_dispatch_ordering [feedC6] .absent 86400 itemC6a itemC6b hsub rfl
      ⟨100, rfl, by decide⟩ ⟨100, rfl, by decide⟩
      (List.not_mem_nil _) (List.not_mem_nil _)⟩

/-! ## Claim C9 — items without a parseable timestamp -/

/-- **C9.**  An item whose publish timestamp could not be parsed is never
dispatched — on every run, including a first run with no prior state, the
filter at lines 117-120 skips it before any cutoff or identity check — so it
reaches neither the new-items files nor the identities appended to the
persisted list (which come exclusively from dispatched items), while it does
appear in the full `all_items.json` output. -/
theorem C9_undated_never_dispatched (feeds : List Feed) (file : FileContent)
    (t : Nat) (item : RSSItem)
    (hmem : item ∈ (mainRun feeds file t).all_items)
    (hnone : item.pub_date = none) :
    item ∉ (mainRun feeds file t).dispatched ∧
    item ∉ (mainRun feeds file t).files.new_items_json ∧
    (∀ l, (mainRun feeds file t).files.new_items_csv = some l → item ∉ l) ∧
    (∃ l, (mainRun feeds file t).files.all_items_json = some l ∧
      item ∈ l) ∧
    (mainRun feeds file t).saved.last_item_ids =
      (load_last_run_info file).2 ++
        (mainRun feeds file t).dispatched.map (fun i => i.item_id) := by
  have hnd : item ∉ (mainRun feeds file t).dispatched := by
    intro hin
    have hin0 : item ∈ (get_new_items (fetch_and_process_feeds feeds)
        (cutoffOf file t)).filter
        (fun i => !(load_last_run_info file).2.contains i.item_id) := hin
    have hin1 := (List.mem_filter.mp hin0).1
    obtain ⟨-, d, hd, -⟩ := (mem_get_new_items _ _ _).mp hin1
    rw [hnone] at hd
    cases hd
  refine ⟨hnd, hnd, ?_, ?_, rfl⟩
  · intro l hl
    have hl' : (if (mainRun feeds file t).dispatched.isEmpty then
          (none : Option (List RSSItem))
        else some (mainRun feeds file t).dispatched) = some l := hl
    by_cases hE : (mainRun feeds file t).dispatched.isEmpty
    · rw [if_pos hE] at hl'
      cases hl'
    · rw [if_neg hE] at hl'
      injection hl' with hl2
      rw [← hl2]
      exact hnd
  · refine ⟨(mainRun feeds file t).all_items, ?_, hmem⟩
    have hne : (mainRun feeds file t).all_items.isEmpty = false := by
      cases hA : (mainRun feeds file t).all_items with
      | nil => rw [hA] at hmem; cases hmem
      | cons y ys => rfl
    show (if (mainRun feeds file t).all_items.isEmpty then
        (none : Option (List RSSItem))
      else some (mainRun feeds file t).all_items) = some _
    rw [hne]
    rfl

/-- Concrete one-feed run for the C9 witness: its single entry carries no
parseable timestamp. -/
def feedC9 : Feed :=
  ⟨"https://ex.com/feed", [⟨some "T", some "L", none, none, none⟩]⟩

/-- The normalized form of `feedC9`'s entry: `pub_date` is unset. -/
def itemC9 : RSSItem :=
  { title := "T", description := "", link := "L", pub_date := none,
    image_url := none, source := "ex.com", item_id := md5hex "T:L" }

/-- Witness for `C9_undated_never_dispatched`: a first run whose one item
has no parseable timestamp. -/
theorem C9_undated_never_dispatched_witness :
    (itemC9 ∈ (mainRun [feedC9] .absent 86400).all_items ∧
      itemC9.pub_date = none) ∧
    (itemC9 ∉ (mainRun [feedC9] .absent 86400).dispatched ∧
      itemC9 ∉ (mainRun [feedC9] .absent 86400).files.new_items_json ∧
      (∀ l, (mainRun [feedC9] .absent 86400).files.new_items_csv = some l →
        itemC9 ∉ l) ∧
      (∃ l, (mainRun [feedC9] .absent 86400).files.all_items_json = some l ∧
        itemC9 ∈ l) ∧
      (mainRun [feedC9] .absent 86400).saved.last_item_ids =
        (load_last_run_info .absent).2 ++
          (mainRun [feedC9] .absent 86400).dispatched.map
            (fun i => i.item_id)) :=
  have hmem : itemC9 ∈ (mainRun [feedC9] .absent 86400).all_items := by
    rw [show (mainRun [feedC9] .absent 86400).all_items = [itemC9] from rfl]
    exact List.mem_cons_self ..
  ⟨⟨hmem, rfl⟩,
    C9_undated_never_dispatched [feedC9] .absent 86400 itemC9 hmem rfl⟩

/-! ## Claim C10 — no deduplication within one run -/

/-- **C10.**  Two items of the same run with the same identity are both kept:
the identity filter at line 264 tests only against the identity list loaded
at run start, so both pass, both are dispatched (in order), and line 270
appends the identity once per item — the saved identity list then contains
that identity at least twice. -/
theorem C10_duplicates_both_dispatched (feeds : List Feed)
    (file : FileContent) (t : Nat) (a b : RSSItem) (x : String)
    (hsub : List.Sublist [a, b] ((mainRun feeds file t).all_items))
    (hxa : a.item_id = x) (hxb : b.item_id = x)
    (hda : ∃ d, a.pub_date = some d ∧ cutoffOf file t < d)
    (hdb : ∃ d, b.pub_date = some d ∧ cutoffOf file t < d)
    (hix : ¬ x ∈ (load_last_run_info file).2) :
    List.Sublist [a, b] ((mainRun feeds file t).dispatched) ∧
    2 ≤ (mainRun feeds file t).saved.last_item_ids.count x := by
  obtain ⟨da, hda1, hda2⟩ := hda
  obtain ⟨db, hdb1, hdb2⟩ := hdb
  have hD : (mainRun feeds file t).dispatched =
      (((mainRun feeds file t).all_items).filter
          (fun item => match item.pub_date with
            | none => false
            | some d => decide (cutoffOf file t < d))).filter
        (fun i => !(load_last_run_info file).2.contains i.item_id) := rfl
  have hia : ¬ a.item_id ∈ (load_last_run_info file).2 := by
    rw [hxa]; exact hix
  have hib : ¬ b.item_id ∈ (load_last_run_info file).2 := by
    rw [hxb]; exact hix
  have e1 : [a, b].filter
      (fun item => match item.pub_date with
        | none => false
        | some d => decide (cutoffOf file t < d)) = [a, b] := by
    simp [List.filter_cons, hda1, hdb1, hda2, hdb2]
  have e2 : [a, b].filter
      (fun i => !(load_last_run_info file).2.contains i.item_id)
      = [a, b] := by
    simp [List.filter_cons, hia, hib]
  have hf1 := hsub.filter
    (fun item => match item.pub_date with
      | none => false
      | some d => decide (cutoffOf file t < d))
  rw [e1] at hf1
  have hf2 := hf1.filter
    (fun i => !(load_last_run_info file).2.contains i.item_id)
  rw [e2] at hf2
  rw [← hD] at hf2
  refine ⟨hf2, ?_⟩
  have hmap := hf2.map (fun i : RSSItem => i.item_id)
  simp only [List.map_cons, List.map_nil, hxa, hxb] at hmap
  have hcnt := hmap.count_le x
  simp only [List.count_cons_self, List.count_nil] at hcnt
  have hsave : (mainRun feeds file t).saved.last_item_ids =
      (load_last_run_info file).2 ++
        (mainRun feeds file t).dispatched.map
          (fun i : RSSItem => i.item_id) := rfl
  rw [hsave, List.count_append]
  omega

/-- Concrete feed for the C10 witness: the same article (same title and
link, hence the same identity) appears twice with different publish
instants. -/
def feedC10 : Feed :=
  ⟨"https://ex.com/feed",
   [⟨some "T", some "L", none, none, some 200⟩,
    ⟨some "T", some "L", none, none, some 100⟩]⟩

/-- The normalized form of `feedC10`'s first entry. -/
def itemC10a : RSSItem :=
  { title := "T", description := "", link := "L", pub_date := some 200,
    image_url := none, source := "ex.com", item_id := md5hex "T:L" }

/-- The normalized form of `feedC10`'s second entry: same identity. -/
def itemC10b : RSSItem :=
  { title := "T", description := "", link := "L", pub_date := some 100,
    image_url := none, source := "ex.com", item_id := md5hex "T:L" }

/-- Witness for `C10_duplicates_both_dispatched`: both same-identity items
are dispatched and their identity is saved twice. -/
theorem C10_duplicates_both_dispatched_witness :
    (List.Sublist [itemC10a, itemC10b]
        ((mainRun [feedC10] .absent 86400).all_items) ∧
      itemC10a.item_id = md5hex "T:L" ∧ itemC10b.item_id = md5hex "T:L" ∧
      ¬ md5hex "T:L" ∈ (load_last_run_info .absent).2) ∧
    (List.Sublist [itemC10a, itemC10b]
        ((mainRun [feedC10] .absent 86400).dispatched) ∧
      2 ≤ (mainRun [feedC10] .absent 86400).saved.last_item_ids.count
        (md5hex "T:L")) :=
  have hsub : List.Sublist [itemC10a, itemC10b]
      ((mainRun [feedC10] .absent 86400).all_items) := by
    rw [show (mainRun [feedC10] .absent 86400).all_items =
      [itemC10a, itemC10b] from rfl]
  ⟨⟨hsub, rfl, rfl, List.not_mem_nil _⟩,
    C10_duplicates_both_dispatched [feedC10] .absent 86400 itemC10a itemC10b
      (md5hex "T:L") hsub rfl rfl ⟨200, rfl, by decide⟩ ⟨100, rfl, by decide⟩
      (List.not_mem_nil _)⟩
